import Mathlib

/-!
Shallow embedding of the tubely video-upload handler
(`handler_upload_video.go` and its later revision): the aspect-ratio
classifier, the faststart remux step, the bucket/key reference codec,
the presigned-URL conversion `dbVideoToSignedVideo`, and the upload
orchestrator `handlerUploadVideo` as a function from an environment of
injected collaborator outcomes to a response plus a trace of effects.

Go strings are modelled as `List Char`; Go `int` values that the spec
restricts to non-negative (stream width/height) as `Nat`, where Go's
truncating integer division coincides with `Nat` floor division.
-/

namespace Tubely

/-- Go strings, modelled as lists of characters. -/
abbrev Str := List Char

/-! ## Classifier: the pure core of `getVideoAspectRatio` (lines 57-62) -/

/-- The classification of stream geometry performed at the end of
`getVideoAspectRatio`: `if width == 16*height/9 { "16:9" } else if
height == 16*width/9 { "9:16" } else { "other" }`. -/
def classifyAspect (width height : Nat) : String :=
  if width = 16 * height / 9 then "16:9"
  else if height = 16 * width / 9 then "9:16"
  else "other"

/-- Outcome of running ffprobe on a file and decoding its JSON output:
the command can fail, the output can fail to unmarshal, or it yields a
list of streams each carrying a width and a height. -/
inductive ProbeResult where
  | execError
  | parseError
  | streams (dims : List (Nat × Nat))
deriving DecidableEq, Repr

/-- `getVideoAspectRatio` as a function of the probe outcome: propagate
the ffprobe error, the unmarshal error, reject an empty stream list, and
otherwise classify the first stream's width and height. -/
def getVideoAspectRatio (r : ProbeResult) : Except String String :=
  match r with
  | .execError => .error "ffprobe error"
  | .parseError => .error "error: failed to unmarshal ffmpeg res"
  | .streams [] => .error "error: ffmpeg result is empty"
  | .streams ((w, h) :: _) => .ok (classifyAspect w h)

/-! ## Reference codec: `bucketAndKey := cfg.s3Bucket + "," + key` and the
split in `dbVideoToSignedVideo` -/

/-- Go's `strings.Split(s, sep)` for a one-character separator: splits at
every occurrence of `sep`; the empty string yields `[[]]`. -/
def splitOnChar (sep : Char) : Str → List Str
  | [] => [[]]
  | c :: rest =>
    if c = sep then [] :: splitOnChar sep rest
    else
      match splitOnChar sep rest with
      | [] => [[c]]
      | h :: t => (c :: h) :: t

/-- The stored-reference encoding, line 210: `cfg.s3Bucket + "," + key`. -/
def encodeRef (bucket key : Str) : Str := bucket ++ ',' :: key

/-- The stored-reference decoding, lines 247-253: split on `","`, fail
when fewer than two components result, else take components 0 and 1. -/
def decodeRef (s : Str) : Except String (Str × Str) :=
  match splitOnChar ',' s with
  | bucket :: key :: _ => .ok (bucket, key)
  | _ => .error "error: invalid video url"

/-! ## Video records and `dbVideoToSignedVideo` -/

/-- The fields of `database.Video` the handler reads or writes. -/
structure Video where
  id : Str
  userID : Str
  videoURL : Option Str
deriving DecidableEq, Repr

/-- `dbVideoToSignedVideo` (lines 242-261). `sign` stands for
`generatePresignedURL` on the configured client: `none` models its error
return. A `nil` URL returns the record unchanged with no error; decode
and signing failures return the input record alongside an error. -/
def dbVideoToSignedVideo (sign : Str → Str → Option Str) (video : Video) :
    Video × Option String :=
  match video.videoURL with
  | none => (video, none)
  | some url =>
    match decodeRef url with
    | .error e => (video, some e)
    | .ok (bucket, key) =>
      match sign bucket key with
      | none => (video, some "error: failed to generate presigned URL")
      | some u => ({ video with videoURL := some u }, none)

/-! ## Upload orchestrator -/

/-- Observable effects of one handler run, in program order. A
`scheduleRemove` event is a `defer os.Remove(path)`: the removal itself
runs unconditionally when the handler returns. `remux` records the
successful ffmpeg faststart rewrite creating its output file; `s3Put`
and `dbUpdate` record the respective collaborator calls being issued. -/
inductive Event where
  | createTemp (path : Str)
  | scheduleRemove (path : Str)
  | remux (inPath outPath : Str)
  | probe (path : Str)
  | openFile (path : Str)
  | s3Put (bucket key : Str)
  | dbUpdate (v : Video)
deriving DecidableEq, Repr

/-- The handler's HTTP response: `respondWithJSON 200` with the signed
record, or `respondWithError status message`. -/
inductive Response where
  | ok (v : Video)
  | err (status : Nat) (msg : String)
deriving DecidableEq, Repr

/-- One request's collaborator outcomes and inputs, injected: `none` or
`false` makes the corresponding fallible step fail. `assetName` is the
leaf name `getAssetPath(mediaType)` generates (random; its generator is
outside this file's sources), `sign` is `generatePresignedURL` on the
configured client. -/
structure UploadEnv where
  videoIDOk : Bool
  bearerToken : Option Str
  jwtUser : Option Str
  dbVideo : Option Video
  parseFormOk : Bool
  formFileOk : Bool
  parsedMediaType : Option Str
  tempPath : Option Str
  copyOk : Bool
  seekOk : Bool
  remuxOk : Bool
  probeResult : ProbeResult
  openOk : Bool
  putObjectOk : Bool
  updateOk : Bool
  s3Bucket : Str
  assetName : Str
  sign : Str → Str → Option Str

/-- `processVideoForFastStart` derives its output path by appending
`".processing"` to the input path (line 66). -/
def processedPathOf (tempFileName : Str) : Str :=
  tempFileName ++ ".processing".toList

/-- The `switch aspectRatio` mapping an aspect-ratio string to the key's
directory segment (lines 176-183). -/
def directoryOf (aspectRatio : String) : String :=
  if aspectRatio = "16:9" then "landscape"
  else if aspectRatio = "9:16" then "portrait"
  else "other"

/-- The storage key, lines 195-196: `path.Join(directory, getAssetPath(mediaType))`,
where both segments are clean relative paths so the join inserts `"/"`. -/
def storageKeyOf (directory : String) (assetName : Str) : Str :=
  directory.toList ++ '/' :: assetName

/-- Lines 86-141: id parsing, bearer-token auth, metadata fetch,
ownership check, form parsing and the media-type gate. No effect on the
trace: nothing is created before the temp file. Returns the fetched
record on success, the error response otherwise. -/
def uploadValidate (env : UploadEnv) : Except Response Video :=
  if env.videoIDOk = false then .error (.err 400 "Invalid video ID") else
  match env.bearerToken with
  | none => .error (.err 401 "Couldn't get JWT from header")
  | some _token =>
  match env.jwtUser with
  | none => .error (.err 401 "Invalid JWT")
  | some userID =>
  match env.dbVideo with
  | none => .error (.err 500 "Failed to get video from database")
  | some videoMetadata =>
  if videoMetadata.userID ≠ userID then .error (.err 401 "Video is not yours!") else
  if env.parseFormOk = false then .error (.err 400 "Exceeded max upload file size") else
  if env.formFileOk = false then .error (.err 400 "Unable to parse form file") else
  match env.parsedMediaType with
  | none => .error (.err 400 "failed to get content type")
  | some mediaType =>
  if mediaType ≠ "video/mp4".toList then .error (.err 400 "incorrect file type") else
  .ok videoMetadata

/-- Lines 170-225, after the remux succeeded: probe the remuxed file,
classify, open it, schedule its removal, stream it to the object store,
persist the encoded reference, and sign the response. The trace starts
at the probe call. -/
def uploadRemuxed (env : UploadEnv) (videoMetadata : Video)
    (processedFilePath : Str) : Response × List Event :=
  match getVideoAspectRatio env.probeResult with
  | .error _ =>
    (.err 500 "Error determining aspect ratio", [.probe processedFilePath])
  | .ok aspectRatio =>
  if env.openOk = false then
    (.err 500 "failed to open processed file", [.probe processedFilePath]) else
  let key := storageKeyOf (directoryOf aspectRatio) env.assetName
  let tr : List Event := [.probe processedFilePath, .openFile processedFilePath,
    .scheduleRemove processedFilePath, .s3Put env.s3Bucket key]
  if env.putObjectOk = false then (.err 500 "Couldn't put object into S3", tr) else
  let videoMetadata2 :=
    { videoMetadata with videoURL := some (encodeRef env.s3Bucket key) }
  let tr2 := tr ++ [.dbUpdate videoMetadata2]
  if env.updateOk = false then (.err 500 "Couldn't update video", tr2) else
  match dbVideoToSignedVideo env.sign videoMetadata2 with
  | (_, some _) => (.err 500 "Couldn't sign video", tr2)
  | (signedVideo, none) => (.ok signedVideo, tr2)

/-- Lines 152-169, after the temp file was staged: copy the upload in,
rewind, remux (recording the output file's creation), then continue with
`uploadRemuxed`. -/
def uploadStaged (env : UploadEnv) (videoMetadata : Video)
    (tempFileName : Str) : Response × List Event :=
  if env.copyOk = false then (.err 500 "failed to copy file to disk", []) else
  if env.seekOk = false then (.err 500 "Could not reset file pointer", []) else
  if env.remuxOk = false then (.err 500 "failed to process video", []) else
  let rest := uploadRemuxed env videoMetadata (processedPathOf tempFileName)
  (rest.1, .remux tempFileName (processedPathOf tempFileName) :: rest.2)

/-- `handlerUploadVideo` (lines 84-226 of the canonical revision) as a
function from injected outcomes to the response and the effect trace:
validation, then temp-file creation with its `defer os.Remove` recorded
as a `scheduleRemove` event, then the staged pipeline. -/
def handlerUploadVideo (env : UploadEnv) : Response × List Event :=
  match uploadValidate env with
  | .error resp => (resp, [])
  | .ok videoMetadata =>
  match env.tempPath with
  | none => (.err 500 "failed to create temp file", [])
  | some tempFileName =>
  let rest := uploadStaged env videoMetadata tempFileName
  (rest.1, .createTemp tempFileName :: .scheduleRemove tempFileName :: rest.2)

/-! ## Trace observations -/

/-- Paths whose removal a `defer os.Remove` has scheduled: these are
deleted when the handler returns, whatever the exit path. -/
def scheduledRemovals (tr : List Event) : List Str :=
  tr.filterMap fun e =>
    match e with
    | .scheduleRemove p => some p
    | _ => none

/-- Local files the run created: the staged temp file and the remux
output. -/
def createdFiles (tr : List Event) : List Str :=
  tr.filterMap fun e =>
    match e with
    | .createTemp p => some p
    | .remux _ out => some out
    | _ => none

/-- Files still on disk after the handler returns and its deferred
removals have run: created but never scheduled for removal. -/
def remainingFiles (tr : List Event) : List Str :=
  (createdFiles tr).filter fun p => decide (p ∉ scheduledRemovals tr)

/-- Number of object-store write calls issued in the trace. -/
def s3PutCalls (tr : List Event) : Nat :=
  (tr.filterMap fun e =>
    match e with
    | .s3Put b k => some (b, k)
    | _ => none).length

/-- The argument of every metadata-store update call issued, in order. -/
def dbUpdateArgs (tr : List Event) : List Video :=
  tr.filterMap fun e =>
    match e with
    | .dbUpdate v => some v
    | _ => none

/-! ## Concrete environments used to instantiate the theorems -/

/-- A record owned by user `u1` with no media uploaded yet. -/
def video1 : Video :=
  { id := "v1".toList, userID := "u1".toList, videoURL := none }

/-- A record owned by a different user, `u2`. -/
def video2 : Video :=
  { id := "v1".toList, userID := "u2".toList, videoURL := none }

/-- A fully successful request: caller `u1` uploads a 1920x1080
`video/mp4` for their own record `video1`. -/
def okEnv : UploadEnv where
  videoIDOk := true
  bearerToken := some "tok".toList
  jwtUser := some "u1".toList
  dbVideo := some video1
  parseFormOk := true
  formFileOk := true
  parsedMediaType := some "video/mp4".toList
  tempPath := some "/tmp/t".toList
  copyOk := true
  seekOk := true
  remuxOk := true
  probeResult := .streams [(1920, 1080)]
  openOk := true
  putObjectOk := true
  updateOk := true
  s3Bucket := "bucket1".toList
  assetName := "asset.mp4".toList
  sign := fun _ _ => some "signedurl".toList

/-- The same request, but the target record belongs to `u2`. -/
def mismatchEnv : UploadEnv := { okEnv with dbVideo := some video2 }

/-- The same request, but the declared media type is `video/webm`. -/
def wrongTypeEnv : UploadEnv :=
  { okEnv with parsedMediaType := some "video/webm".toList }

/-- The same request, but ffprobe fails on the remuxed file. -/
def probeFailEnv : UploadEnv := { okEnv with probeResult := .execError }

/-! ## Lemmas about `splitOnChar` -/

theorem splitOnChar_ne_nil (sep : Char) (s : Str) : splitOnChar sep s ≠ [] := by
  induction s with
  | nil => simp [splitOnChar]
  | cons c rest ih =>
    simp only [splitOnChar]
    split
    · simp
    · split
      · simp
      · simp

theorem splitOnChar_of_not_mem (sep : Char) (k : Str) (h : sep ∉ k) :
    splitOnChar sep k = [k] := by
  induction k with
  | nil => rfl
  | cons c rest ih =>
    simp only [List.mem_cons, not_or] at h
    have hne : ¬ c = sep := fun hc => h.1 hc.symm
    rw [splitOnChar, if_neg hne, ih h.2]

theorem splitOnChar_append (sep : Char) (a b : Str) (h : sep ∉ a) :
    splitOnChar sep (a ++ sep :: b) = a :: splitOnChar sep b := by
  induction a with
  | nil => rw [List.nil_append, splitOnChar, if_pos rfl]
  | cons c rest ih =>
    simp only [List.mem_cons, not_or] at h
    have hne : ¬ c = sep := fun hc => h.1 hc.symm
    rw [List.cons_append, splitOnChar, if_neg hne, ih h.2]

theorem splitOnChar_head (sep : Char) (s : Str) :
    (splitOnChar sep s).head? = some (s.takeWhile (fun c => c != sep)) := by
  induction s with
  | nil => rfl
  | cons c rest ih =>
    simp only [splitOnChar]
    by_cases hc : c = sep
    · subst hc
      simp [List.takeWhile_cons]
    · rw [if_neg hc]
      cases hsp : splitOnChar sep rest with
      | nil => exact absurd hsp (splitOnChar_ne_nil sep rest)
      | cons hd tl =>
        rw [hsp] at ih
        simp only [List.head?_cons, Option.some.injEq] at ih
        simp [List.takeWhile_cons, bne_iff_ne, hc, ih]

theorem takeWhile_dropWhile_decomp (sep : Char) (s : Str) (h : sep ∈ s) :
    s = s.takeWhile (fun c => c != sep) ++
      sep :: (s.dropWhile (fun c => c != sep)).tail := by
  induction s with
  | nil => cases h
  | cons c rest ih =>
    by_cases hc : c = sep
    · subst hc
      simp [List.takeWhile_cons, List.dropWhile_cons]
    · have hr : sep ∈ rest := by
        rcases List.mem_cons.mp h with h1 | h2
        · exact absurd h1.symm hc
        · exact h2
      have hcb : (c != sep) = true := by simp [bne_iff_ne, hc]
      simp only [List.takeWhile_cons, List.dropWhile_cons, hcb, if_pos,
        List.cons_append, List.cons.injEq, true_and]
      exact ih hr

theorem not_mem_takeWhile_ne (sep : Char) (s : Str) :
    sep ∉ s.takeWhile (fun c => c != sep) := by
  intro hmem
  have := List.mem_takeWhile_imp hmem
  simp at this

/-! ## C3: codec round-trip -/

theorem decode_encode_eq (c k : Str) (hc : ',' ∉ c) (hk : ',' ∉ k) :
    decodeRef (encodeRef c k) = .ok (c, k) := by
  rw [decodeRef, encodeRef, splitOnChar_append ',' c k hc,
    splitOnChar_of_not_mem ',' k hk]

/-- C3: for every container and key free of the delimiter `','`, decoding
the encoded reference yields exactly the pair back. -/
theorem decodeRef_encodeRef (c k : Str) (hc : ',' ∉ c) (hk : ',' ∉ k) :
    decodeRef (encodeRef c k) = .ok (c, k) :=
  decode_encode_eq c k hc hk

/-- C3 witness: `decode(encode("bucket1","a/b/c")) == ("bucket1","a/b/c")`. -/
theorem decodeRef_encodeRef_witness :
    decodeRef (encodeRef "bucket1".toList "a/b/c".toList) =
      .ok ("bucket1".toList, "a/b/c".toList) :=
  decodeRef_encodeRef "bucket1".toList "a/b/c".toList (by decide) (by decide)

/-! ## C4: what decode actually returns -/

/-- C4 counterexample: on `"a,b,c"` the decoder returns key `"b"`, the
segment between the first and second delimiter, not `"b,c"`, the whole
text after the first delimiter as the claim states. -/
theorem decodeRef_truncates_key :
    decodeRef "a,b,c".toList = .ok ("a".toList, "b".toList) ∧
      "b".toList ≠ "b,c".toList := by
  refine ⟨by rfl, by decide⟩

/-- C4 amended: `decode` splits on every occurrence of the delimiter and
takes the first two components — the container is the text before the
first delimiter and the key is the text after it up to the next
delimiter — and it fails with the invalid-reference error exactly when
the input contains no delimiter. -/
theorem decodeRef_characterization (s : Str) :
    decodeRef s =
      if ',' ∈ s then
        Except.ok (s.takeWhile (fun c => c != ','),
          ((s.dropWhile (fun c => c != ',')).tail).takeWhile (fun c => c != ','))
      else Except.error "error: invalid video url" := by
  by_cases h : ',' ∈ s
  · rw [if_pos h]
    have hdec := takeWhile_dropWhile_decomp ',' s h
    have hna : ',' ∉ s.takeWhile (fun c => c != ',') := not_mem_takeWhile_ne ',' s
    have hsplit :
        splitOnChar ',' s =
          s.takeWhile (fun c => c != ',') ::
            splitOnChar ',' ((s.dropWhile (fun c => c != ',')).tail) := by
      conv_lhs => rw [hdec]
      exact splitOnChar_append ',' _ _ hna
    have hhead := splitOnChar_head ',' ((s.dropWhile (fun c => c != ',')).tail)
    cases hsp : splitOnChar ',' ((s.dropWhile (fun c => c != ',')).tail) with
    | nil => exact absurd hsp (splitOnChar_ne_nil ',' _)
    | cons hd tl =>
      rw [hsp] at hsplit hhead
      simp only [List.head?_cons, Option.some.injEq] at hhead
      rw [decodeRef, hsplit, hhead]
  · rw [if_neg h, decodeRef, splitOnChar_of_not_mem ',' s h]

/-! ## C2 and C7: the classifier -/

/-- C2 counterexample: at width 1, height 1 the Portrait condition
`height == 16*width/9` holds (`16*1/9 = 1` under floor division), yet
the classifier returns `"16:9"`, so "Portrait exactly when height equals
16*width/9" fails. -/
theorem classifyAspect_portrait_iff_fails :
    (1 : Nat) = 16 * 1 / 9 ∧ classifyAspect 1 1 ≠ "9:16" := by decide

/-- C2 amended: Landscape exactly when `width = 16*height/9`; Portrait
exactly when `height = 16*width/9` and the Landscape condition does not
also hold; Other for every remaining pair; and the three concrete
examples classify as the claim lists. -/
theorem classifyAspect_spec :
    (∀ w h : Nat,
      (classifyAspect w h = "16:9" ↔ w = 16 * h / 9) ∧
      (classifyAspect w h = "9:16" ↔ h = 16 * w / 9 ∧ ¬ w = 16 * h / 9) ∧
      (classifyAspect w h = "other" ↔ ¬ w = 16 * h / 9 ∧ ¬ h = 16 * w / 9)) ∧
    classifyAspect 1920 1080 = "16:9" ∧
    classifyAspect 1080 1920 = "9:16" ∧
    classifyAspect 640 480 = "other" := by
  refine ⟨fun w h => ?_, by decide, by decide, by decide⟩
  unfold classifyAspect
  split_ifs with h1 h2 <;> refine ⟨?_, ?_, ?_⟩ <;> simp_all

/-- C7 counterexample: (1,1) is a pair other than (0,0) satisfying both
checks — with width = height = 1, `16*1/9 = 1` makes the Landscape and
the Portrait condition the same true equation — so "the only pair
satisfying both checks is the degenerate width=height=0" is false. It
still resolves to Landscape. -/
theorem classifyAspect_both_checks_at_one_one :
    (1 : Nat) = 16 * 1 / 9 ∧ (1 : Nat) ≠ 0 ∧ classifyAspect 1 1 = "16:9" := by
  decide

/-- C7 amended: the Landscape check is evaluated first, so any pair
satisfying it (in particular any pair satisfying both checks) resolves
to Landscape; the pairs satisfying both checks are exactly (0,0) and
(1,1); and the classifier is total, always returning one of the three
orientations. -/
theorem classifyAspect_tie_break :
    (∀ w h : Nat, w = 16 * h / 9 → classifyAspect w h = "16:9") ∧
    (∀ w h : Nat, (w = 16 * h / 9 ∧ h = 16 * w / 9) ↔
      (w = 0 ∧ h = 0) ∨ (w = 1 ∧ h = 1)) ∧
    (∀ w h : Nat, classifyAspect w h = "16:9" ∨ classifyAspect w h = "9:16" ∨
      classifyAspect w h = "other") := by
  refine ⟨?_, ?_, ?_⟩
  · intro w h hw
    unfold classifyAspect
    rw [if_pos hw]
  · intro w h
    constructor
    · rintro ⟨hw, hh⟩
      have h9 : (0 : Nat) < 9 := by norm_num
      have hle1 : h ≤ 16 * h / 9 := by
        rw [Nat.le_div_iff_mul_le h9]; omega
      have hle2 : w ≤ 16 * w / 9 := by
        rw [Nat.le_div_iff_mul_le h9]; omega
      have hhw : h ≤ w := by rw [hw]; exact hle1
      have hwh : w ≤ h := by rw [hh]; exact hle2
      have heq : w = h := le_antisymm hwh hhw
      subst heq
      by_cases h2 : 2 ≤ w
      · exfalso
        have hgt : w + 1 ≤ 16 * w / 9 := by
          rw [Nat.le_div_iff_mul_le h9]; omega
        rw [← hw] at hgt
        omega
      · interval_cases w
        · exact Or.inl ⟨rfl, rfl⟩
        · exact Or.inr ⟨rfl, rfl⟩
    · rintro (⟨rfl, rfl⟩ | ⟨rfl, rfl⟩) <;> exact ⟨by decide, by decide⟩
  · intro w h
    unfold classifyAspect
    split_ifs <;> simp

/-! ## C6: ownership mismatch -/

/-- C6: when the record's owner does not match the identity resolved
from the bearer credential, the handler responds 401 unauthorized and
the trace holds zero object-store writes and zero metadata updates. -/
theorem upload_owner_mismatch (env : UploadEnv) (tk uid : Str) (v : Video)
    (h1 : env.videoIDOk = true) (h2 : env.bearerToken = some tk)
    (h3 : env.jwtUser = some uid) (h4 : env.dbVideo = some v)
    (h5 : v.userID ≠ uid) :
    (handlerUploadVideo env).1 = .err 401 "Video is not yours!" ∧
    s3PutCalls (handlerUploadVideo env).2 = 0 ∧
    dbUpdateArgs (handlerUploadVideo env).2 = [] := by
  have htr : handlerUploadVideo env = (.err 401 "Video is not yours!", []) := by
    unfold handlerUploadVideo uploadValidate
    simp [h1, h2, h3, h4, h5]
  rw [htr]
  exact ⟨rfl, rfl, rfl⟩

/-- C6 witness: the concrete request by `u1` against the record owned by
`u2` is rejected 401 with no write and no update. -/
theorem upload_owner_mismatch_witness :
    (handlerUploadVideo mismatchEnv).1 = .err 401 "Video is not yours!" ∧
    s3PutCalls (handlerUploadVideo mismatchEnv).2 = 0 ∧
    dbUpdateArgs (handlerUploadVideo mismatchEnv).2 = [] :=
  upload_owner_mismatch mismatchEnv "tok".toList "u1".toList video2
    rfl rfl rfl rfl (by decide)

/-! ## C8: wrong media type rejected before staging -/

/-- C8: a declared media type other than `video/mp4` draws a 400
client-fault response, and the trace is empty — in particular no
temp-file creation step was reached. -/
theorem upload_wrong_type_rejected (env : UploadEnv) (tk uid : Str)
    (v : Video) (mt : Str)
    (h1 : env.videoIDOk = true) (h2 : env.bearerToken = some tk)
    (h3 : env.jwtUser = some uid) (h4 : env.dbVideo = some v)
    (h5 : v.userID = uid) (h6 : env.parseFormOk = true)
    (h7 : env.formFileOk = true) (h8 : env.parsedMediaType = some mt)
    (h9 : mt ≠ "video/mp4".toList) :
    (handlerUploadVideo env).1 = .err 400 "incorrect file type" ∧
    (handlerUploadVideo env).2 = [] ∧
    ∀ p, Event.createTemp p ∉ (handlerUploadVideo env).2 := by
  have hval : uploadValidate env = .error (.err 400 "incorrect file type") := by
    unfold uploadValidate
    simp [h1, h2, h3, h4, h5, h6, h7, h8]
    exact fun hc => absurd hc h9
  have htr : handlerUploadVideo env = (.err 400 "incorrect file type", []) := by
    unfold handlerUploadVideo
    rw [hval]
  rw [htr]
  exact ⟨rfl, rfl, fun p => by simp⟩

/-- C8 witness: the concrete `video/webm` upload is rejected 400 with an
empty trace. -/
theorem upload_wrong_type_rejected_witness :
    (handlerUploadVideo wrongTypeEnv).1 = .err 400 "incorrect file type" ∧
    (handlerUploadVideo wrongTypeEnv).2 = [] ∧
    ∀ p, Event.createTemp p ∉ (handlerUploadVideo wrongTypeEnv).2 :=
  upload_wrong_type_rejected wrongTypeEnv "tok".toList "u1".toList video1
    "video/webm".toList rfl rfl rfl rfl rfl rfl rfl rfl (by decide)

/-! ## C10: `dbVideoToSignedVideo` on nil URL and on failure -/

/-- C10: a nil stored-reference returns the record unchanged with no
error, and whenever the conversion returns an error (decode or signing
failure) the returned record is the untouched input. -/
theorem dbVideoToSignedVideo_preserves (sign : Str → Str → Option Str)
    (v : Video) :
    (v.videoURL = none → dbVideoToSignedVideo sign v = (v, none)) ∧
    (∀ e, (dbVideoToSignedVideo sign v).2 = some e →
      (dbVideoToSignedVideo sign v).1 = v) := by
  cases hurl : v.videoURL with
  | none =>
    have hres : dbVideoToSignedVideo sign v = (v, none) := by
      unfold dbVideoToSignedVideo
      simp only [hurl]
    exact ⟨fun _ => hres, fun e he => by rw [hres] at he; simp at he⟩
  | some url =>
    refine ⟨fun hc => by simp at hc, ?_⟩
    cases hdec : decodeRef url with
    | error msg =>
      have hres : dbVideoToSignedVideo sign v = (v, some msg) := by
        unfold dbVideoToSignedVideo
        simp only [hurl, hdec]
      intro e _
      rw [hres]
    | ok bk =>
      obtain ⟨b, k⟩ := bk
      cases hsign : sign b k with
      | none =>
        have hres : dbVideoToSignedVideo sign v =
            (v, some "error: failed to generate presigned URL") := by
          unfold dbVideoToSignedVideo
          simp only [hurl, hdec, hsign]
        intro e _
        rw [hres]
      | some u =>
        have hres : dbVideoToSignedVideo sign v =
            ({ v with videoURL := some u }, none) := by
          unfold dbVideoToSignedVideo
          simp only [hurl, hdec, hsign]
        intro e he
        rw [hres] at he
        simp at he

/-! ## C9: the persisted reference is the encoded form -/

theorem comma_not_mem_storageKeyOf (a : String) (nm : Str) (h : ',' ∉ nm) :
    ',' ∉ storageKeyOf (directoryOf a) nm := by
  unfold storageKeyOf directoryOf
  split_ifs <;> intro hmem <;>
    rcases List.mem_append.mp hmem with hx | hx
  · exact absurd hx (by decide)
  · rcases List.mem_cons.mp hx with h2 | h2
    · exact absurd h2 (by decide)
    · exact h h2
  · exact absurd hx (by decide)
  · rcases List.mem_cons.mp hx with h2 | h2
    · exact absurd h2 (by decide)
    · exact h h2
  · exact absurd hx (by decide)
  · rcases List.mem_cons.mp hx with h2 | h2
    · exact absurd h2 (by decide)
    · exact h h2

/-- C9: on a fully successful upload, the single metadata-update call
persists the record with its stored-reference set to the opaque encoded
`bucket,key` form, while the response payload carries the record with
that field substituted by the signer's URL; the persisted argument is
not the signed form. -/
theorem upload_success_persists_encoded (env : UploadEnv) (tk uid : Str)
    (v : Video) (w h : Nat) (dims : List (Nat × Nat)) (t u : Str)
    (h1 : env.videoIDOk = true) (h2 : env.bearerToken = some tk)
    (h3 : env.jwtUser = some uid) (h4 : env.dbVideo = some v)
    (h5 : v.userID = uid) (h6 : env.parseFormOk = true)
    (h7 : env.formFileOk = true)
    (h8 : env.parsedMediaType = some "video/mp4".toList)
    (h9 : env.tempPath = some t) (h10 : env.copyOk = true)
    (h11 : env.seekOk = true) (h12 : env.remuxOk = true)
    (h13 : env.probeResult = .streams ((w, h) :: dims))
    (h14 : env.openOk = true) (h15 : env.putObjectOk = true)
    (h16 : env.updateOk = true)
    (h17 : ',' ∉ env.s3Bucket) (h18 : ',' ∉ env.assetName)
    (h19 : env.sign env.s3Bucket
      (storageKeyOf (directoryOf (classifyAspect w h)) env.assetName) = some u) :
    dbUpdateArgs (handlerUploadVideo env).2 =
      [{ v with videoURL := some (encodeRef env.s3Bucket
        (storageKeyOf (directoryOf (classifyAspect w h)) env.assetName)) }] ∧
    (handlerUploadVideo env).1 = .ok { v with videoURL := some u } := by
  have hkmem : ',' ∉ storageKeyOf (directoryOf (classifyAspect w h))
      env.assetName := comma_not_mem_storageKeyOf _ _ h18
  have hdec : decodeRef (encodeRef env.s3Bucket
      (storageKeyOf (directoryOf (classifyAspect w h)) env.assetName)) =
      .ok (env.s3Bucket,
        storageKeyOf (directoryOf (classifyAspect w h)) env.assetName) :=
    decode_encode_eq _ _ h17 hkmem
  have hsigned : dbVideoToSignedVideo env.sign
      { v with videoURL := some (encodeRef env.s3Bucket
        (storageKeyOf (directoryOf (classifyAspect w h)) env.assetName)) } =
      ({ v with videoURL := some u }, none) := by
    unfold dbVideoToSignedVideo
    simp only [hdec, h19]
  rw [h5] at hsigned
  have htr : handlerUploadVideo env =
      (.ok { v with videoURL := some u },
        [Event.createTemp t, Event.scheduleRemove t,
          Event.remux t (processedPathOf t), Event.probe (processedPathOf t),
          Event.openFile (processedPathOf t),
          Event.scheduleRemove (processedPathOf t),
          Event.s3Put env.s3Bucket
            (storageKeyOf (directoryOf (classifyAspect w h)) env.assetName),
          Event.dbUpdate { v with videoURL := some (encodeRef env.s3Bucket
            (storageKeyOf (directoryOf (classifyAspect w h))
              env.assetName)) }]) := by
    unfold handlerUploadVideo uploadValidate uploadStaged uploadRemuxed
    simp [h1, h2, h3, h4, h5, h6, h7, h8, h9, h10, h11, h12, h13, h14, h15,
      h16, getVideoAspectRatio, hsigned]
  rw [htr]
  exact ⟨rfl, rfl⟩

/-- C9 witness: the concrete successful upload persists
`"bucket1,landscape/asset.mp4"` and responds with the record carrying
the signed URL instead. -/
theorem upload_success_persists_encoded_witness :
    dbUpdateArgs (handlerUploadVideo okEnv).2 =
      [{ video1 with videoURL := some (encodeRef okEnv.s3Bucket
        (storageKeyOf (directoryOf (classifyAspect 1920 1080))
          okEnv.assetName)) }] ∧
    (handlerUploadVideo okEnv).1 =
      .ok { video1 with videoURL := some "signedurl".toList } :=
  upload_success_persists_encoded okEnv "tok".toList "u1".toList video1
    1920 1080 [] "/tmp/t".toList "signedurl".toList
    rfl rfl rfl rfl rfl rfl rfl rfl rfl rfl rfl rfl rfl rfl rfl rfl
    (by decide) (by decide) rfl

/-! ## C5: remux before probe -/

theorem processedPathOf_ne (t : Str) : processedPathOf t ≠ t := by
  intro he
  have h2 := congrArg List.length he
  rw [processedPathOf, List.length_append] at h2
  have h3 : (".processing".toList).length = 11 := rfl
  omega

theorem uploadRemuxed_trace (env : UploadEnv) (v : Video) (pp : Str) :
    ∃ rest, (uploadRemuxed env v pp).2 = Event.probe pp :: rest ∧
      ∀ q, Event.probe q ∉ rest := by
  unfold uploadRemuxed
  rcases har : getVideoAspectRatio env.probeResult with e | ar <;>
    simp only [har]
  · exact ⟨[], rfl, by simp⟩
  by_cases ho : env.openOk = false
  · rw [if_pos ho]
    exact ⟨[], rfl, by simp⟩
  rw [if_neg ho]
  by_cases hp : env.putObjectOk = false
  · rw [if_pos hp]
    exact ⟨_, rfl, by simp⟩
  rw [if_neg hp]
  by_cases hu : env.updateOk = false
  · rw [if_pos hu]
    exact ⟨_, rfl, by simp⟩
  rw [if_neg hu]
  rcases hsv : dbVideoToSignedVideo env.sign
      { v with videoURL := some (encodeRef env.s3Bucket
        (storageKeyOf (directoryOf ar) env.assetName)) } with ⟨sv, e⟩
  rcases e with _ | msg <;> simp only [hsv]
  · exact ⟨_, rfl, by simp⟩
  · exact ⟨_, rfl, by simp⟩

theorem uploadStaged_trace (env : UploadEnv) (v : Video) (t : Str) :
    (uploadStaged env v t).2 = [] ∨
    ∃ rest, (uploadStaged env v t).2 =
      Event.remux t (processedPathOf t) ::
        Event.probe (processedPathOf t) :: rest ∧
      ∀ q, Event.probe q ∉ rest := by
  unfold uploadStaged
  by_cases hc : env.copyOk = false
  · rw [if_pos hc]
    exact Or.inl rfl
  rw [if_neg hc]
  by_cases hs : env.seekOk = false
  · rw [if_pos hs]
    exact Or.inl rfl
  rw [if_neg hs]
  by_cases hr : env.remuxOk = false
  · rw [if_pos hr]
    exact Or.inl rfl
  rw [if_neg hr]
  obtain ⟨rest, hrest, hq⟩ := uploadRemuxed_trace env v (processedPathOf t)
  refine Or.inr ⟨rest, ?_, hq⟩
  simp only [hrest]

theorem handler_probe_shape (env : UploadEnv) :
    (∀ q, Event.probe q ∉ (handlerUploadVideo env).2) ∨
    ∃ t rest, (handlerUploadVideo env).2 =
      Event.createTemp t :: Event.scheduleRemove t ::
        Event.remux t (processedPathOf t) ::
        Event.probe (processedPathOf t) :: rest ∧
      ∀ q, Event.probe q ∉ rest := by
  rcases hval : uploadValidate env with resp | v
  · have h2 : (handlerUploadVideo env).2 = [] := by
      unfold handlerUploadVideo
      simp only [hval]
    rw [h2]
    exact Or.inl (by simp)
  · rcases ht : env.tempPath with _ | t
    · have h2 : (handlerUploadVideo env).2 = [] := by
        unfold handlerUploadVideo
        simp only [hval, ht]
      rw [h2]
      exact Or.inl (by simp)
    · have h2 : (handlerUploadVideo env).2 =
          Event.createTemp t :: Event.scheduleRemove t ::
            (uploadStaged env v t).2 := by
        unfold handlerUploadVideo
        simp only [hval, ht]
      rcases uploadStaged_trace env v t with h0 | ⟨rest, hrest, hq⟩
      · rw [h2, h0]
        exact Or.inl (by simp)
      · rw [h2, hrest]
        exact Or.inr ⟨t, rest, rfl, hq⟩

/-- C5: whenever the pipeline probes a file, the trace decomposes so
that a successful remux of the staged file immediately precedes the
probe, the probed path is the remux output, and it differs from the
staged pre-remux file (which was created earlier, inside the prefix). -/
theorem remux_before_probe (env : UploadEnv) (p : Str)
    (hmem : Event.probe p ∈ (handlerUploadVideo env).2) :
    ∃ t pre post,
      (handlerUploadVideo env).2 =
        pre ++ Event.remux t p :: Event.probe p :: post ∧
      Event.createTemp t ∈ pre ∧ p = processedPathOf t ∧ p ≠ t := by
  rcases handler_probe_shape env with hno | ⟨t, rest, hsh, hq⟩
  · exact absurd hmem (hno p)
  · rw [hsh] at hmem
    simp only [List.mem_cons] at hmem
    rcases hmem with h | h | h | h | h
    · simp at h
    · simp at h
    · simp at h
    · injection h with h2
      subst h2
      rw [hsh]
      exact ⟨t, [Event.createTemp t, Event.scheduleRemove t], rest, rfl,
        by simp, rfl, processedPathOf_ne t⟩
    · exact absurd h (hq p)

/-- C5 witness: in the concrete successful run, the probe of
`"/tmp/t.processing"` is immediately preceded by the remux that produced
it from the staged `"/tmp/t"`. -/
theorem remux_before_probe_witness :
    ∃ t pre post,
      (handlerUploadVideo okEnv).2 =
        pre ++ Event.remux t "/tmp/t.processing".toList ::
          Event.probe "/tmp/t.processing".toList :: post ∧
      Event.createTemp t ∈ pre ∧
      "/tmp/t.processing".toList = processedPathOf t ∧
      "/tmp/t.processing".toList ≠ t :=
  remux_before_probe okEnv "/tmp/t.processing".toList (by decide)

/-! ## C1: cleanup of the staged and remux files -/

/-- C1 (code bug): when every step succeeds up to the remux but ffprobe
then fails on the remuxed file, the handler returns 500 with removal of
the staged temp file scheduled but not of the remux output — the defer
for the remux output is only registered after probing and opening
succeed — so the remux output file remains on disk after the deferred
removals run. -/
theorem probe_failure_leaks_remux_output :
    (handlerUploadVideo probeFailEnv).1 =
      .err 500 "Error determining aspect ratio" ∧
    remainingFiles (handlerUploadVideo probeFailEnv).2 =
      ["/tmp/t.processing".toList] := by decide

end Tubely
